import Mathlib

/-!
Verification development for the discord-streamalert repository.

The TypeScript sources under `src/` are shallowly embedded as pure Lean
functions.  Asynchronous I/O is made explicit: every upstream answer the code
awaits (Twitch stream info, freshly assigned chat message ids, HTTP fetch
results, ...) is an input supplied through an environment value, every side
effect the code fires (sending or deleting a chat message, granting or
revoking a role, logging a warning) is recorded in an ordered effect log, and
every persistent key/value namespace is carried as explicit state.
-/

namespace StreamAlert

/-! ### Association lists

JavaScript objects used as string-keyed maps (`this._onlineStreams`, the
`keyv` stores) are embedded as association lists with unique keys: field
assignment replaces in place, `delete obj[k]` removes the entry. -/

def lookupEntry {α : Type} (k : String) : List (String × α) → Option α
  | [] => none
  | p :: t => if p.1 = k then some p.2 else lookupEntry k t

def setEntry {α : Type} (k : String) (v : α) : List (String × α) → List (String × α)
  | [] => [(k, v)]
  | p :: t => if p.1 = k then (k, v) :: t else p :: setEntry k v t

def eraseEntry {α : Type} (k : String) : List (String × α) → List (String × α)
  | [] => []
  | p :: t => if p.1 = k then eraseEntry k t else p :: eraseEntry k t

theorem lookupEntry_setEntry_self {α : Type} (k : String) (v : α) (l : List (String × α)) :
    lookupEntry k (setEntry k v l) = some v := by
  induction l with
  | nil => simp [setEntry, lookupEntry]
  | cons p t ih =>
    by_cases h : p.1 = k
    · simp [setEntry, h, lookupEntry]
    · simp [setEntry, h, lookupEntry, ih]

theorem lookupEntry_setEntry_ne {α : Type} {k' k : String} (h : k' ≠ k) (v : α)
    (l : List (String × α)) : lookupEntry k' (setEntry k v l) = lookupEntry k' l := by
  have h' : k ≠ k' := Ne.symm h
  induction l with
  | nil => simp [setEntry, lookupEntry, h']
  | cons p t ih =>
    by_cases hp : p.1 = k
    · subst hp
      simp [setEntry, lookupEntry, h']
    · simp only [setEntry, if_neg hp, lookupEntry]
      by_cases hp' : p.1 = k'
      · simp [hp']
      · simp [hp', ih]

theorem lookupEntry_eraseEntry_self {α : Type} (k : String) (l : List (String × α)) :
    lookupEntry k (eraseEntry k l) = none := by
  induction l with
  | nil => simp [eraseEntry, lookupEntry]
  | cons p t ih =>
    by_cases h : p.1 = k
    · simp [eraseEntry, h, ih]
    · simp [eraseEntry, h, lookupEntry, ih]

theorem lookupEntry_eraseEntry_ne {α : Type} {k' k : String} (h : k' ≠ k)
    (l : List (String × α)) : lookupEntry k' (eraseEntry k l) = lookupEntry k' l := by
  have h' : k ≠ k' := Ne.symm h
  induction l with
  | nil => simp [eraseEntry]
  | cons p t ih =>
    by_cases hp : p.1 = k
    · subst hp
      simp [eraseEntry, lookupEntry, h', ih]
    · simp only [eraseEntry, if_neg hp, lookupEntry]
      by_cases hp' : p.1 = k'
      · simp [hp']
      · simp [hp', ih]

theorem lookupEntry_setEntry_cases {α : Type} {k' k : String} {v v' : α}
    {l : List (String × α)} (h : lookupEntry k' (setEntry k v l) = some v') :
    (k' = k ∧ v' = v) ∨ (k' ≠ k ∧ lookupEntry k' l = some v') := by
  by_cases hk : k' = k
  · subst hk
    rw [lookupEntry_setEntry_self] at h
    exact Or.inl ⟨rfl, (Option.some.injEq _ _ ▸ h).symm⟩
  · rw [lookupEntry_setEntry_ne hk] at h
    exact Or.inr ⟨hk, h⟩

theorem lookupEntry_eraseEntry_cases {α : Type} {k' k : String} {v' : α}
    {l : List (String × α)} (h : lookupEntry k' (eraseEntry k l) = some v') :
    k' ≠ k ∧ lookupEntry k' l = some v' := by
  by_cases hk : k' = k
  · subst hk
    rw [lookupEntry_eraseEntry_self] at h
    exact absurd h (by simp)
  · rw [lookupEntry_eraseEntry_ne hk] at h
    exact ⟨hk, h⟩

def keysOf {α : Type} (l : List (String × α)) : List String := l.map Prod.fst

theorem mem_keysOf_setEntry {α : Type} {a k : String} {v : α} {l : List (String × α)}
    (h : a ∈ keysOf (setEntry k v l)) : a = k ∨ a ∈ keysOf l := by
  induction l with
  | nil => simpa [setEntry, keysOf] using h
  | cons p t ih =>
    by_cases hp : p.1 = k
    · simp only [setEntry, if_pos hp, keysOf, List.map_cons, List.mem_cons] at h ⊢
      rcases h with h | h
      · exact Or.inl h
      · exact Or.inr (Or.inr h)
    · simp only [setEntry, if_neg hp, keysOf, List.map_cons, List.mem_cons] at h ⊢
      rcases h with h | h
      · exact Or.inr (Or.inl h)
      · rcases ih h with h' | h'
        · exact Or.inl h'
        · exact Or.inr (Or.inr h')

theorem nodup_keysOf_setEntry {α : Type} (k : String) (v : α) {l : List (String × α)}
    (h : (keysOf l).Nodup) : (keysOf (setEntry k v l)).Nodup := by
  induction l with
  | nil => simp [setEntry, keysOf]
  | cons p t ih =>
    simp only [keysOf, List.map_cons, List.nodup_cons] at h
    by_cases hp : p.1 = k
    · subst hp
      simpa [setEntry, keysOf, List.nodup_cons] using h
    · simp only [setEntry, if_neg hp, keysOf, List.map_cons, List.nodup_cons]
      refine ⟨fun hmem => ?_, ih h.2⟩
      rcases mem_keysOf_setEntry hmem with h' | h'
      · exact hp h'
      · exact h.1 h'

theorem eraseEntry_sublist {α : Type} (k : String) (l : List (String × α)) :
    (eraseEntry k l).Sublist l := by
  induction l with
  | nil => simp [eraseEntry]
  | cons p t ih =>
    by_cases hp : p.1 = k
    · simp only [eraseEntry, if_pos hp]
      exact ih.cons p
    · simp only [eraseEntry, if_neg hp]
      exact ih.cons₂ p

theorem nodup_keysOf_eraseEntry {α : Type} (k : String) {l : List (String × α)}
    (h : (keysOf l).Nodup) : (keysOf (eraseEntry k l)).Nodup :=
  ((eraseEntry_sublist k l).map Prod.fst).nodup h

/-! ### StreamManager (`src/stream_manager.ts`)

`StreamManager` keeps one in-memory `StreamEvent` per broadcaster id in
`_onlineStreams` and a persisted `keyv` namespace `streamManager` mapping every
sent alert message id to the broadcaster login (`_cache`).  The Twitch and
Discord collaborators answer through a per-call environment: `getStreamInfo`
may return nothing (any upstream failure yields `undefined`), and a successful
`channel.send` yields a fresh message id chosen by Discord. -/

/-- Fields of the Twitch stream-info payload that `stream_manager.ts` branches
on: `game_name` selects the category and `user_login` is persisted with the
alert message id.  The remaining fields (`user_name`, `title`,
`thumbnail_url`) only feed the embed's presentation text. -/
structure StreamInfo where
  game_name : String
  user_login : String
deriving DecidableEq, Repr

/-- In-memory record of one live stream (`interface StreamEvent`); `messageId`
is `none` when no alert message is currently posted. -/
structure StreamEvent where
  broadcasterName : String
  category : String
  messageId : Option String
deriving DecidableEq, Repr

/-- The two mutable stores owned by `StreamManager`: the in-memory
`_onlineStreams` record and the persisted alert-id namespace `_cache`
(message id -> broadcaster login). -/
structure SMState where
  onlineStreams : List (String × StreamEvent)
  cache : List (String × String)
deriving DecidableEq, Repr

/-- State at process start, after the constructor's cleanup pass. -/
def initState : SMState := ⟨[], []⟩

/-- Ordered log of externally visible side effects of the handlers. -/
inductive SMEffect
  | sentMsg (messageId login : String)
  | deletedMsg (messageId : String)
  | roleGranted (login : String)
  | roleRevoked (login : String)
  | warnedDup (broadcasterName : String)
deriving DecidableEq, Repr

/-- Upstream answers consumed by one handler call: the `getStreamInfo` result
(`none` models any failed fetch) and the message id Discord would assign if an
alert is sent during the call. -/
structure CallEnv where
  streamInfo : Option StreamInfo
  newMessageId : String
deriving DecidableEq, Repr

/-- `String.prototype.toLowerCase`, as character-wise lowering (the
categories compared are ASCII names). -/
def toLowerCase (s : String) : String :=
  String.mk (s.data.map Char.toLower)

/-- `category.toLowerCase() === cfg['stream_category'].toLowerCase()`. -/
def catMatch (cfgCategory category : String) : Bool :=
  toLowerCase category == toLowerCase cfgCategory

/-- `StreamManager.deleteMessage(broadcasterId, messageId, save)`: always
attempts the Discord deletion (a 404 is swallowed there, so the attempt is
logged unconditionally); when `save` is set it clears the in-memory message id
(guarded by `if (broadcasterId && this._onlineStreams[broadcasterId])`, where
an empty string is falsy) and removes the persisted cache entry. -/
def deleteMessage (broadcasterId : Option String) (messageId : String) (save : Bool)
    (s : SMState) : SMState × List SMEffect :=
  if save then
    let streams :=
      match broadcasterId with
      | some b =>
        if b ≠ "" then
          match lookupEntry b s.onlineStreams with
          | some ev => setEntry b { ev with messageId := none } s.onlineStreams
          | none => s.onlineStreams
        else s.onlineStreams
      | none => s.onlineStreams
    (⟨streams, eraseEntry messageId s.cache⟩, [SMEffect.deletedMsg messageId])
  else
    (s, [SMEffect.deletedMsg messageId])

/-- First block of `onStreamOnline`: if a `StreamEvent` is already cached for
the broadcaster, log a warning, delete its alert message if one is posted, and
drop the record. -/
def teardownExisting (broadcasterId broadcasterName : String) (s : SMState) :
    SMState × List SMEffect :=
  match lookupEntry broadcasterId s.onlineStreams with
  | none => (s, [])
  | some ev =>
    match ev.messageId with
    | some m =>
      let r := deleteMessage (some broadcasterId) m true s
      (⟨eraseEntry broadcasterId r.1.onlineStreams, r.1.cache⟩,
        SMEffect.warnedDup broadcasterName :: r.2)
    | none =>
      (⟨eraseEntry broadcasterId s.onlineStreams, s.cache⟩,
        [SMEffect.warnedDup broadcasterName])

/-- `StreamManager.onStreamOnline`.  After tearing down a duplicate record it
fetches stream info (aborting if that fails), then posts an alert and fires
the role grant only when the reported category matches the configured one;
`sendStreamEmbed` persists `messageId -> user_login` as part of posting. -/
def onStreamOnline (cfgCategory broadcasterId broadcasterLogin broadcasterName : String)
    (env : CallEnv) (s : SMState) : SMState × List SMEffect :=
  let r := teardownExisting broadcasterId broadcasterName s
  match env.streamInfo with
  | none => r
  | some info =>
    if catMatch cfgCategory info.game_name then
      (⟨setEntry broadcasterId ⟨broadcasterName, info.game_name, some env.newMessageId⟩
          r.1.onlineStreams,
        setEntry env.newMessageId info.user_login r.1.cache⟩,
       r.2 ++ [SMEffect.sentMsg env.newMessageId info.user_login,
               SMEffect.roleGranted broadcasterLogin])
    else
      (⟨setEntry broadcasterId ⟨broadcasterName, info.game_name, none⟩ r.1.onlineStreams,
        r.1.cache⟩, r.2)

/-- `StreamManager.onStreamOffline`: when a record exists, delete its alert
message (if posted), fire the role revoke, and drop the record. -/
def onStreamOffline (broadcasterId broadcasterLogin : String) (s : SMState) :
    SMState × List SMEffect :=
  match lookupEntry broadcasterId s.onlineStreams with
  | none => (s, [])
  | some ev =>
    let r :=
      match ev.messageId with
      | some m => deleteMessage (some broadcasterId) m true s
      | none => (s, [])
    (⟨eraseEntry broadcasterId r.1.onlineStreams, r.1.cache⟩,
      r.2 ++ [SMEffect.roleRevoked broadcasterLogin])

/-- `StreamManager.onChannelUpdate`: only acts when a record exists.  With a
posted alert and a non-matching new category it deletes the alert and revokes
the role; with no posted alert and a matching new category it fetches stream
info (aborting silently on failure) and posts a new alert.  Note the stored
`category` field itself is never updated. -/
def onChannelUpdate (cfgCategory broadcasterId broadcasterLogin category : String)
    (env : CallEnv) (s : SMState) : SMState × List SMEffect :=
  match lookupEntry broadcasterId s.onlineStreams with
  | none => (s, [])
  | some ev =>
    match ev.messageId with
    | some m =>
      if catMatch cfgCategory category then (s, [])
      else
        let r := deleteMessage (some broadcasterId) m true s
        (r.1, r.2 ++ [SMEffect.roleRevoked broadcasterLogin])
    | none =>
      if catMatch cfgCategory category then
        match env.streamInfo with
        | none => (s, [])
        | some info =>
          (⟨setEntry broadcasterId { ev with messageId := some env.newMessageId }
              s.onlineStreams,
            setEntry env.newMessageId info.user_login s.cache⟩,
           [SMEffect.sentMsg env.newMessageId info.user_login,
            SMEffect.roleGranted broadcasterLogin])
      else (s, [])

/-- One webhook-delivered call into the tracker, with its environment. -/
inductive SMCall
  | online (broadcasterId broadcasterLogin broadcasterName : String) (env : CallEnv)
  | offline (broadcasterId broadcasterLogin : String)
  | update (broadcasterId broadcasterLogin category : String) (env : CallEnv)
deriving DecidableEq, Repr

def stepCall (cfgCategory : String) (s : SMState) : SMCall → SMState × List SMEffect
  | .online b l n env => onStreamOnline cfgCategory b l n env s
  | .offline b l => onStreamOffline b l s
  | .update b l c env => onChannelUpdate cfgCategory b l c env s

/-- Sequential processing of a list of notifications, concatenating the
effect logs. -/
def runTrace (cfgCategory : String) (s : SMState) : List SMCall → SMState × List SMEffect
  | [] => (s, [])
  | c :: rest =>
    let r1 := stepCall cfgCategory s c
    let r2 := runTrace cfgCategory r1.1 rest
    (r2.1, r1.2 ++ r2.2)

/-! ### Startup cleanup (`cleanupMessagesAndRoles`)

The constructor runs
`SELECT 'key','value' from keyv WHERE 'key' LIKE 'streamManager:%'` through
better-sqlite3 and, for every returned row, attempts to delete the message
`row.key` (without saving) and revokes the role of
`JSON.parse(row.value)['value']`, then clears the namespace. -/

/-- SQLite `LIKE 'streamManager:%'` applied to a string: the pattern is a
literal prefix followed by the `%` wildcard. -/
def likeStreamManagerPat (s : String) : Bool :=
  s.startsWith "streamManager:"

/-- Rows produced by the cleanup query.  In SQLite single quotes delimit
string literals, not identifiers, so `SELECT 'key','value'` selects the two
constant strings and the WHERE clause tests the literal string `key` against
the pattern — the table contents are never consulted beyond the row count,
and the filter is constantly false. -/
def cleanupQueryRows (keyvTable : List (String × String)) : List (String × String) :=
  keyvTable.filterMap fun _ =>
    if likeStreamManagerPat "key" then some ("key", "value") else none

/-- `StreamManager.cleanupMessagesAndRoles`: for each row of the query above,
attempt a message deletion of `row.key` with `save = false` and a role revoke
of the login parsed from `row.value` (`jsonValue` stands for
`JSON.parse(-)['value']`), then clear the persisted namespace. -/
def cleanupMessagesAndRoles (jsonValue : String → String)
    (keyvTable : List (String × String)) (s : SMState) : SMState × List SMEffect :=
  let rows := cleanupQueryRows keyvTable
  let effs := rows.flatMap fun row =>
    (deleteMessage none row.1 false s).2 ++ [SMEffect.roleRevoked (jsonValue row.2)]
  (⟨s.onlineStreams, []⟩, effs)

/-! ### TwitchApi (`src/twitch/twitch_api.ts`)

`makeApiCall` wraps `fetch` with a two-attempt loop: a 2xx returns the
payload, a 401 refreshes the app token and retries, a status in the
caller-supplied list throws `TwitchApiError`, and anything else returns
`undefined`.  The upstream responses for the successive fetches are supplied
as a list. -/

/-- One `fetch` response as `makeApiCall` observes it: either `res.ok` with
the parsed payload, or a non-2xx status code. -/
inductive FetchRes (α : Type)
  | ok (payload : α)
  | status (code : Nat)
deriving DecidableEq, Repr

/-- Result of `makeApiCall`: a payload, `undefined` ("no result"), or a thrown
`TwitchApiError` carrying the status code. -/
inductive ApiOutcome (α : Type)
  | ret (payload : α)
  | noResult
  | apiErr (code : Nat)
deriving DecidableEq, Repr

/-- The `do ... while (attemptLeft != 0)` body of `makeApiCall`, returning the
outcome together with the number of fetches made and of token refreshes
(`getAppToken(true)` calls) performed. -/
def makeApiCallAux {α : Type} (errorStatusCodes : List Nat) :
    Nat → List (FetchRes α) → ApiOutcome α × Nat × Nat
  | 0, _ => (.noResult, 0, 0)
  | _ + 1, [] => (.noResult, 0, 0)
  | n + 1, r :: rest =>
    match r with
    | .ok p => (.ret p, 1, 0)
    | .status c =>
      if c = 401 then
        let k := makeApiCallAux errorStatusCodes n rest
        (k.1, k.2.1 + 1, k.2.2 + 1)
      else if c ∈ errorStatusCodes then (.apiErr c, 1, 0)
      else (.noResult, 1, 0)

/-- `TwitchApi.makeApiCall` with its `attemptLeft = 2` budget. -/
def makeApiCall {α : Type} (errorStatusCodes : List Nat) (responses : List (FetchRes α)) :
    ApiOutcome α × Nat × Nat :=
  makeApiCallAux errorStatusCodes 2 responses

/-- Result of `TwitchApi.getAppToken`: the returned token, or the `TypeError`
raised by reading `res['access_token']` when the credential exchange produced
no result. -/
inductive TokenRes
  | token (t : String)
  | crashed
deriving DecidableEq, Repr

/-- Observable outcome of one `getAppToken` call: its result, the resulting
value of the persisted `appToken` cache key, and how many validation calls and
client-credential exchanges were made. -/
structure TokenRun where
  outcome : TokenRes
  cacheAfter : Option String
  validateCalls : Nat
  exchangeCalls : Nat
deriving DecidableEq, Repr

/-- The client-credentials exchange at the end of `getAppToken`: on success
the new token is persisted under the fixed cache key `appToken` and
returned. -/
def requestNewToken (cached : Option String) (validateCalls : Nat)
    (exchangeRes : Option String) : TokenRun :=
  match exchangeRes with
  | some tok => ⟨.token tok, some tok, validateCalls, 1⟩
  | none => ⟨.crashed, cached, validateCalls, 1⟩

/-- `TwitchApi.getAppToken(validate)`.  `cached` is the value stored under the
`appToken` key (JavaScript treats an empty string as falsy), `validateRes` is
what the validation endpoint would answer, and `exchangeRes` is the token a
client-credentials exchange would yield (`none` models a failed exchange). -/
def getAppToken (cached : Option String) (validate : Bool) (validateRes : Bool)
    (exchangeRes : Option String) : TokenRun :=
  match cached with
  | some t =>
    if t ≠ "" then
      if validate then
        if validateRes then ⟨.token t, cached, 1, 0⟩
        else requestNewToken cached 1 exchangeRes
      else ⟨.token t, cached, 0, 0⟩
    else requestNewToken cached 0 exchangeRes
  | none => requestNewToken cached 0 exchangeRes

/-- One entry of the remote EventSub subscription list. -/
structure SubRecord where
  id : String
  status : String
deriving DecidableEq, Repr

/-- `TwitchApi.getSubscriptionStatus`: pages through the remote list (each
list element is one page, the cursor chain ends when the list is exhausted)
and returns the status of the first entry with the wanted id, or
`"not_exists"` when no page contains it. -/
def getSubscriptionStatus (pages : List (List SubRecord)) (subscriptionID : String) :
    String :=
  match pages with
  | [] => "not_exists"
  | page :: rest =>
    match page.find? (fun sub => sub.id == subscriptionID) with
    | some sub => sub.status
    | none => getSubscriptionStatus rest subscriptionID

/-- Upstream answer to one subscription-create POST. -/
inductive CreateRes
  | created (id status : String)
  | conflict
  | failed (code : Nat)
deriving DecidableEq, Repr

/-- Environment for one pass of `subscribeToEvent`: the paginated remote list
answering the status check, the create call's answer, and what a
`getAllSubscriptions(true)` refresh would put into the cache for this
(broadcaster, type) — `none` when the remote list does not contain such a
subscription, in which case `getAllSubscriptions` leaves the evicted cache
entry absent. -/
structure SubRound where
  pages : List (List SubRecord)
  createRes : CreateRes
  refreshRec : Option SubRecord
deriving DecidableEq, Repr

inductive SubOutcome
  | done
  | crashed (code : Nat)
  | exhausted
deriving DecidableEq, Repr

/-- Effect counters of a `subscribeToEvent` run: status checks
(`getSubscriptionStatus` calls), delete attempts (`deleteSubscription`),
create attempts (POSTs to the EventSub endpoint), and full-cache refreshes
(`getAllSubscriptions(true)`). -/
structure SubEffects where
  statusChecks : Nat
  deletes : Nat
  creates : Nat
  refreshes : Nat
deriving DecidableEq, Repr

/-- `TwitchApi.subscribeToEvent` for one (broadcaster, event type), over the
cache entry for that pair.  A cached record whose authoritative status is
neither `enabled` nor `webhook_callback_verification_pending` is deleted
remotely — except when the status is `"not_exists"`, which skips the delete —
and evicted before a fresh create.  A create conflict (409, thrown as
`TwitchApiError`) triggers `getAllSubscriptions(true)` and an unguarded
recursive call, consuming the next environment round; a create answered by
another error status makes `makeApiCall` return `undefined` and the
subsequent `res['data'][0]` access throw.  `.exhausted` marks runs needing
more environment rounds than supplied. -/
def subscribeToEvent : Option SubRecord → List SubRound → SubOutcome × Option SubRecord × SubEffects
  | cache, [] => (.exhausted, cache, ⟨0, 0, 0, 0⟩)
  | cache, round :: rest =>
    let pre : Option (Nat × Nat) :=
      match cache with
      | none => some (0, 0)
      | some rec =>
        let st := getSubscriptionStatus round.pages rec.id
        if st = "enabled" then none
        else if st = "webhook_callback_verification_pending" then none
        else some (1, if st = "not_exists" then 0 else 1)
    match pre with
    | none => (.done, cache, ⟨1, 0, 0, 0⟩)
    | some (checks, dels) =>
      match round.createRes with
      | .created i st2 => (.done, some ⟨i, st2⟩, ⟨checks, dels, 1, 0⟩)
      | .failed code => (.crashed code, none, ⟨checks, dels, 1, 0⟩)
      | .conflict =>
        let r := subscribeToEvent round.refreshRec rest
        (r.1, r.2.1,
          ⟨checks + r.2.2.statusChecks, dels + r.2.2.deletes,
           1 + r.2.2.creates, 1 + r.2.2.refreshes⟩)

/-! ### Webhooks (`src/twitch/webhooks.ts`)

The gateway computes `'sha256=' + hmacSha256Hex(secret, id + timestamp +
rawBody)` and compares it against the signature header with
`crypto.timingSafeEqual`, which throws a `RangeError` when the two buffers
differ in byte length.  The HMAC-SHA256 hex digest itself is abstracted as a
function parameter `digest` (for the real function its output is 64 hex
characters). -/

/-- Request headers and raw body as the Express handler sees them; a missing
header is `undefined`. -/
structure WebReq where
  messageIdHeader : Option String
  timestampHeader : Option String
  signatureHeader : Option String
  messageTypeHeader : Option String
  rawBody : String
deriving DecidableEq, Repr

/-- JavaScript string coercion of a possibly missing header: `undefined`
concatenates as the string `"undefined"`. -/
def headerStr : Option String → String
  | some s => s
  | none => "undefined"

/-- `Webhooks.getHmacMessage`: message-id header ++ timestamp header ++ raw
body. -/
def getHmacMessage (req : WebReq) : String :=
  headerStr req.messageIdHeader ++ headerStr req.timestampHeader ++ req.rawBody

/-- The value `Webhooks.verifyRequestHmac` compares against: prefix plus hex
digest. -/
def expectedHmac (digest : String → String) (req : WebReq) : String :=
  "sha256=" ++ digest (getHmacMessage req)

inductive VerifyRes
  | valid
  | forbidden
  | raised
deriving DecidableEq, Repr

/-- `Webhooks.verifyRequestHmac`.  The computed `hmac` is never falsy (it
always carries the prefix), so the `!hmac || !receivedHmac` guard fires
exactly when the signature header is missing or empty (403).  Otherwise
`timingSafeEqual(Buffer.from(hmac), Buffer.from(receivedHmac))` throws a
`RangeError` (`.raised`) when the UTF-8 byte lengths differ, and else answers
the byte-wise comparison. -/
def verifyRequestHmac (digest : String → String) (req : WebReq) : VerifyRes :=
  let hmac := expectedHmac digest req
  match req.signatureHeader with
  | none => .forbidden
  | some received =>
    if received = "" then .forbidden
    else if hmac.utf8ByteSize ≠ received.utf8ByteSize then .raised
    else if hmac = received then .valid
    else .forbidden

/-- The notification body fields the gateway reads after `JSON.parse`
(the body is modelled post-parse; all claims below concern well-formed JSON
bodies). -/
structure NotifBody where
  challenge : String
  subscriptionType : String
  subscriptionStatus : String
deriving DecidableEq, Repr

/-- An HTTP response sent by the gateway: status code and optional body. -/
structure HttpResp where
  code : Nat
  body : Option String
deriving DecidableEq, Repr

/-- `Webhooks.isNotification`: switches on the message-type header, sends the
response for the type, and reports `(response, is notification, warned)`.
Only `notification` yields `true`; a missing header falls into the default
branch like any unknown type. -/
def isNotification (messageTypeHeader : Option String) (body : NotifBody) :
    HttpResp × Bool × Bool :=
  if messageTypeHeader = some "notification" then (⟨200, none⟩, true, false)
  else if messageTypeHeader = some "webhook_callback_verification" then
    (⟨200, some body.challenge⟩, false, false)
  else if messageTypeHeader = some "revocation" then (⟨204, none⟩, false, false)
  else (⟨200, none⟩, false, true)

/-- `Webhooks.handleRequest`: verify the HMAC, then classify.  The result is
`(response sent by the gateway code itself — `none` when an exception escaped
to Express, which answers 500 —, whether the notification was dispatched to
the StreamManager handler, whether an unknown-type warning was logged)`. -/
def handleRequest (digest : String → String) (req : WebReq) (body : NotifBody) :
    Option HttpResp × Bool × Bool :=
  match verifyRequestHmac digest req with
  | .valid =>
    let r := isNotification req.messageTypeHeader body
    (some r.1, r.2.1, r.2.2)
  | .forbidden => (some ⟨403, none⟩, false, false)
  | .raised => (none, false, false)

/-! ### Spec-side vocabulary

The specification speaks about "the entity's last known (most recently
reported) category".  For an `online` notification the category is reported
by the stream-info fetch (`game_name`); for an `update` it is the category
carried by the notification; `offline` reports none. -/

/-- The last category reported for a broadcaster along a trace (following the
spec's words): the `game_name` of the latest successful online fetch, or the
category of the latest update, whichever came last; `none` when the latest
online fetch failed or nothing was reported. -/
def lastReportedCategory (broadcasterId : String) : List SMCall → Option String :=
  go none
where
  go (acc : Option String) : List SMCall → Option String
    | [] => acc
    | c :: rest =>
      let acc' :=
        match c with
        | .online b _ _ env =>
          if b = broadcasterId then
            match env.streamInfo with
            | some info => some info.game_name
            | none => none
          else acc
        | .update b _ category _ => if b = broadcasterId then some category else acc
        | .offline _ _ => acc
      go acc' rest

/-- The broadcaster id a call is keyed by. -/
def callBId : SMCall → String
  | .online b _ _ _ => b
  | .offline b _ => b
  | .update b _ _ _ => b

/-- Specification-side shadow of one live entity: its last reported category,
whether the tracker currently holds a posted alert for it, and whether the
most recent report was a channel update to a matching category whose
stream-info fetch failed (the one situation in which the code stays live
without an alert despite a matching category). -/
structure GhostEv where
  lastCat : String
  alerted : Bool
  failedUpd : Bool
deriving DecidableEq, Repr

/-- Shadow transition mirroring the decisions `stream_manager.ts` takes on
each notification, phrased over reported categories only. -/
def ghostStep (cfgCategory : String) (g : List (String × GhostEv)) : SMCall → List (String × GhostEv)
  | .online bId _ _ env =>
    match env.streamInfo with
    | none => eraseEntry bId g
    | some info =>
      setEntry bId ⟨info.game_name, catMatch cfgCategory info.game_name, false⟩ g
  | .offline bId _ => eraseEntry bId g
  | .update bId _ category env =>
    match lookupEntry bId g with
    | none => g
    | some ge =>
      if ge.alerted then setEntry bId ⟨category, catMatch cfgCategory category, false⟩ g
      else if catMatch cfgCategory category then
        match env.streamInfo with
        | some _ => setEntry bId ⟨category, true, false⟩ g
        | none => setEntry bId ⟨category, false, true⟩ g
      else setEntry bId ⟨category, false, false⟩ g

def ghostRun (cfgCategory : String) (g : List (String × GhostEv)) : List SMCall → List (String × GhostEv)
  | [] => g
  | c :: rest => ghostRun cfgCategory (ghostStep cfgCategory g c) rest

/-- Relation between the tracker's entry for an entity and its shadow: both
exist or neither; the alert message id is defined exactly when the shadow is
alerted; an alerted shadow has a matching last category; a non-alerted shadow
has a non-matching last category unless the last report was a matching update
whose stream-info fetch failed. -/
def entryRel (cfgCategory : String) : Option StreamEvent → Option GhostEv → Prop
  | none, none => True
  | some ev, some ge =>
      ev.messageId.isSome = ge.alerted ∧
      (ge.alerted = true → catMatch cfgCategory ge.lastCat = true) ∧
      (ge.alerted = false → catMatch cfgCategory ge.lastCat = false ∨ ge.failedUpd = true)
  | _, _ => False

/-! ### Characterization lemmas for the handler state updates -/

theorem deleteMessage_cache (broadcasterId : Option String) (m : String) (s : SMState) :
    (deleteMessage broadcasterId m true s).1.cache = eraseEntry m s.cache := by
  unfold deleteMessage
  cases broadcasterId <;> simp

theorem lookupEntry_deleteMessage_ne {b bId : String} (hbb : b ≠ bId) (m : String)
    (s : SMState) :
    lookupEntry b (deleteMessage (some bId) m true s).1.onlineStreams =
      lookupEntry b s.onlineStreams := by
  unfold deleteMessage
  by_cases hbe : bId = ""
  · simp [hbe]
  · cases hl : lookupEntry bId s.onlineStreams with
    | none => simp [hbe, hl]
    | some ev => simp [hbe, hl, lookupEntry_setEntry_ne hbb]

theorem lookupEntry_deleteMessage_self {bId : String} (hbe : bId ≠ "") {ev : StreamEvent}
    (m : String) {s : SMState} (hl : lookupEntry bId s.onlineStreams = some ev) :
    lookupEntry bId (deleteMessage (some bId) m true s).1.onlineStreams =
      some { ev with messageId := none } := by
  unfold deleteMessage
  simp [hbe, hl, lookupEntry_setEntry_self]

theorem nodup_deleteMessage (bId : Option String) (m : String) (save : Bool) {s : SMState}
    (h : (keysOf s.onlineStreams).Nodup) :
    (keysOf (deleteMessage bId m save s).1.onlineStreams).Nodup := by
  unfold deleteMessage
  cases save
  · simpa using h
  · cases bId with
    | none => simpa using h
    | some b =>
      by_cases hbe : b = ""
      · simp [hbe]; exact h
      · cases hl : lookupEntry b s.onlineStreams with
        | none => simp [hbe, hl]; exact h
        | some ev => simp [hbe, hl]; exact nodup_keysOf_setEntry _ _ h

theorem lookupEntry_teardownExisting (b bId nm : String) (s : SMState) :
    lookupEntry b (teardownExisting bId nm s).1.onlineStreams =
      if b = bId then none else lookupEntry b s.onlineStreams := by
  unfold teardownExisting
  cases hl : lookupEntry bId s.onlineStreams with
  | none =>
    by_cases hbb : b = bId
    · subst hbb; simp [hl]
    · simp [hbb]
  | some ev =>
    cases hm : ev.messageId with
    | none =>
      by_cases hbb : b = bId
      · subst hbb; simp [hm, lookupEntry_eraseEntry_self]
      · simp [hm, hbb, lookupEntry_eraseEntry_ne hbb]
    | some m =>
      by_cases hbb : b = bId
      · subst hbb; simp [hm, lookupEntry_eraseEntry_self]
      · simp [hm, hbb, lookupEntry_eraseEntry_ne hbb, lookupEntry_deleteMessage_ne hbb]

theorem teardownExisting_cache_none {bId : String} (nm : String) {s : SMState}
    (hl : lookupEntry bId s.onlineStreams = none) :
    (teardownExisting bId nm s).1.cache = s.cache := by
  unfold teardownExisting
  simp [hl]

theorem teardownExisting_cache_idle {bId : String} (nm : String) {s : SMState}
    {ev : StreamEvent} (hl : lookupEntry bId s.onlineStreams = some ev)
    (hm : ev.messageId = none) :
    (teardownExisting bId nm s).1.cache = s.cache := by
  unfold teardownExisting
  simp [hl, hm]

theorem teardownExisting_cache_posted {bId : String} (nm : String) {s : SMState}
    {ev : StreamEvent} {m : String} (hl : lookupEntry bId s.onlineStreams = some ev)
    (hm : ev.messageId = some m) :
    (teardownExisting bId nm s).1.cache = eraseEntry m s.cache := by
  unfold teardownExisting
  simp [hl, hm, deleteMessage_cache]

theorem nodup_teardownExisting (bId nm : String) {s : SMState}
    (h : (keysOf s.onlineStreams).Nodup) :
    (keysOf (teardownExisting bId nm s).1.onlineStreams).Nodup := by
  unfold teardownExisting
  cases hl : lookupEntry bId s.onlineStreams with
  | none => simpa using h
  | some ev =>
    cases hm : ev.messageId with
    | none => simp only [hm]; exact nodup_keysOf_eraseEntry _ h
    | some m => simp only [hm]; exact nodup_keysOf_eraseEntry _ (nodup_deleteMessage _ _ _ h)

theorem nodup_stepCall (cfgCategory : String) (s : SMState) (c : SMCall)
    (h : (keysOf s.onlineStreams).Nodup) :
    (keysOf (stepCall cfgCategory s c).1.onlineStreams).Nodup := by
  cases c with
  | online bId login nm env =>
    simp only [stepCall, onStreamOnline]
    cases env.streamInfo with
    | none => exact nodup_teardownExisting bId nm h
    | some info =>
      by_cases hcat : catMatch cfgCategory info.game_name <;>
        simp [hcat] <;>
        exact nodup_keysOf_setEntry _ _ (nodup_teardownExisting bId nm h)
  | offline bId login =>
    simp only [stepCall, onStreamOffline]
    cases hl : lookupEntry bId s.onlineStreams with
    | none => simpa using h
    | some ev =>
      cases hm : ev.messageId with
      | none => simp only [hm]; exact nodup_keysOf_eraseEntry _ h
      | some m => simp only [hm]; exact nodup_keysOf_eraseEntry _ (nodup_deleteMessage _ _ _ h)
  | update bId login category env =>
    simp only [stepCall, onChannelUpdate]
    cases hl : lookupEntry bId s.onlineStreams with
    | none => simpa using h
    | some ev =>
      cases hm : ev.messageId with
      | some m =>
        simp only [hm]
        by_cases hcat : catMatch cfgCategory category
        · simpa [hcat] using h
        · simp only [hcat, Bool.false_eq_true, if_false]
          exact nodup_deleteMessage _ _ _ h
      | none =>
        simp only [hm]
        by_cases hcat : catMatch cfgCategory category
        · cases henv : env.streamInfo with
          | none => simpa [hcat, henv] using h
          | some info =>
            simp only [hcat, henv, if_true]
            exact nodup_keysOf_setEntry _ _ h
        · simpa [hcat] using h

/-- One notification preserves the correspondence between the tracker state
and its shadow, provided the broadcaster id is nonempty (Twitch ids are;
`deleteMessage` skips the in-memory cleanup for a falsy id). -/
theorem entryRel_step (cfgCategory : String) {s : SMState} {g : List (String × GhostEv)}
    (h : ∀ b, entryRel cfgCategory (lookupEntry b s.onlineStreams) (lookupEntry b g))
    (c : SMCall) (hbne : callBId c ≠ "") :
    ∀ b, entryRel cfgCategory (lookupEntry b (stepCall cfgCategory s c).1.onlineStreams)
      (lookupEntry b (ghostStep cfgCategory g c)) := by
  cases c with
  | online bId login nm env =>
    intro b
    simp only [stepCall, onStreamOnline, ghostStep]
    cases henv : env.streamInfo with
    | none =>
      simp only [henv]
      by_cases hbb : b = bId
      · subst hbb
        rw [lookupEntry_teardownExisting, if_pos rfl, lookupEntry_eraseEntry_self]
        trivial
      · rw [lookupEntry_teardownExisting, if_neg hbb, lookupEntry_eraseEntry_ne hbb]
        exact h b
    | some info =>
      simp only [henv]
      by_cases hcat : catMatch cfgCategory info.game_name
      · simp only [hcat, if_true]
        by_cases hbb : b = bId
        · subst hbb
          rw [lookupEntry_setEntry_self, lookupEntry_setEntry_self]
          simp [entryRel, hcat]
        · rw [lookupEntry_setEntry_ne hbb, lookupEntry_setEntry_ne hbb,
            lookupEntry_teardownExisting, if_neg hbb]
          exact h b
      · have hcat' : catMatch cfgCategory info.game_name = false := by simpa using hcat
        simp only [hcat', Bool.false_eq_true, if_false]
        by_cases hbb : b = bId
        · subst hbb
          rw [lookupEntry_setEntry_self, lookupEntry_setEntry_self]
          simp [entryRel, hcat']
        · rw [lookupEntry_setEntry_ne hbb, lookupEntry_setEntry_ne hbb,
            lookupEntry_teardownExisting, if_neg hbb]
          exact h b
  | offline bId login =>
    intro b
    simp only [stepCall, onStreamOffline, ghostStep]
    cases hl : lookupEntry bId s.onlineStreams with
    | none =>
      simp only [hl]
      by_cases hbb : b = bId
      · subst hbb
        rw [lookupEntry_eraseEntry_self, hl]
        trivial
      · rw [lookupEntry_eraseEntry_ne hbb]
        exact h b
    | some ev =>
      simp only [hl]
      cases hm : ev.messageId with
      | none =>
        simp only [hm]
        by_cases hbb : b = bId
        · subst hbb
          rw [lookupEntry_eraseEntry_self, lookupEntry_eraseEntry_self]
          trivial
        · rw [lookupEntry_eraseEntry_ne hbb, lookupEntry_eraseEntry_ne hbb]
          exact h b
      | some m =>
        simp only [hm]
        by_cases hbb : b = bId
        · subst hbb
          rw [lookupEntry_eraseEntry_self, lookupEntry_eraseEntry_self]
          trivial
        · rw [lookupEntry_eraseEntry_ne hbb, lookupEntry_deleteMessage_ne hbb,
            lookupEntry_eraseEntry_ne hbb]
          exact h b
  | update bId login category env =>
    intro b
    have hbne' : bId ≠ "" := hbne
    have hrel := h bId
    simp only [stepCall, onChannelUpdate, ghostStep]
    cases hl : lookupEntry bId s.onlineStreams with
    | none =>
      cases hg : lookupEntry bId g with
      | some ge =>
        rw [hl, hg] at hrel
        exact False.elim hrel
      | none =>
        simp only [hl, hg]
        exact h b
    | some ev =>
      cases hg : lookupEntry bId g with
      | none =>
        rw [hl, hg] at hrel
        exact False.elim hrel
      | some ge =>
        rw [hl, hg] at hrel
        obtain ⟨h1, h2, h3⟩ := hrel
        simp only [hl, hg]
        cases hm : ev.messageId with
        | some m =>
          have halert : ge.alerted = true := by rw [hm] at h1; simpa using h1.symm
          simp only [hm, halert, if_true]
          by_cases hcat : catMatch cfgCategory category
          · simp only [hcat, if_true]
            by_cases hbb : b = bId
            · subst hbb
              rw [hl, lookupEntry_setEntry_self]
              simp [entryRel, hm, hcat]
            · rw [lookupEntry_setEntry_ne hbb]
              exact h b
          · have hcat' : catMatch cfgCategory category = false := by simpa using hcat
            simp only [hcat', Bool.false_eq_true, if_false]
            by_cases hbb : b = bId
            · subst hbb
              rw [lookupEntry_deleteMessage_self hbne' m hl, lookupEntry_setEntry_self]
              simp [entryRel, hcat']
            · rw [lookupEntry_deleteMessage_ne hbb, lookupEntry_setEntry_ne hbb]
              exact h b
        | none =>
          have halert : ge.alerted = false := by rw [hm] at h1; simpa using h1.symm
          simp only [hm, halert, Bool.false_eq_true, if_false]
          by_cases hcat : catMatch cfgCategory category
          · simp only [hcat, if_true]
            cases henv : env.streamInfo with
            | some info =>
              simp only [henv]
              by_cases hbb : b = bId
              · subst hbb
                rw [lookupEntry_setEntry_self, lookupEntry_setEntry_self]
                simp [entryRel, hcat]
              · rw [lookupEntry_setEntry_ne hbb, lookupEntry_setEntry_ne hbb]
                exact h b
            | none =>
              simp only [henv]
              by_cases hbb : b = bId
              · subst hbb
                rw [hl, lookupEntry_setEntry_self]
                simp [entryRel, hm]
              · rw [lookupEntry_setEntry_ne hbb]
                exact h b
          · have hcat' : catMatch cfgCategory category = false := by simpa using hcat
            simp only [hcat', Bool.false_eq_true, if_false]
            by_cases hbb : b = bId
            · subst hbb
              rw [hl, lookupEntry_setEntry_self]
              simp [entryRel, hm, hcat']
            · rw [lookupEntry_setEntry_ne hbb]
              exact h b

/-- Correspondence and key uniqueness hold along every trace. -/
theorem corr_runTrace (cfgCategory : String) :
    ∀ (tr : List SMCall) (s : SMState) (g : List (String × GhostEv)),
    (∀ c ∈ tr, callBId c ≠ "") → (keysOf s.onlineStreams).Nodup →
    (∀ b, entryRel cfgCategory (lookupEntry b s.onlineStreams) (lookupEntry b g)) →
    (keysOf (runTrace cfgCategory s tr).1.onlineStreams).Nodup ∧
    (∀ b, entryRel cfgCategory (lookupEntry b (runTrace cfgCategory s tr).1.onlineStreams)
      (lookupEntry b (ghostRun cfgCategory g tr)))
  | [], _, _, _, hnd, hcorr => ⟨hnd, hcorr⟩
  | c :: rest, s, g, hb, hnd, hcorr => by
    have hb1 : callBId c ≠ "" := hb c (List.mem_cons_self c rest)
    have hbr : ∀ c' ∈ rest, callBId c' ≠ "" := fun c' hc' => hb c' (List.mem_cons_of_mem c hc')
    have h1 := entryRel_step cfgCategory hcorr c hb1
    have h2 := nodup_stepCall cfgCategory s c hnd
    have hmain := corr_runTrace cfgCategory rest (stepCall cfgCategory s c).1
      (ghostStep cfgCategory g c) hbr h2 h1
    simpa [runTrace, ghostRun] using hmain

/-! ### Linking live state to the persisted alert-id set -/

/-- The message id Discord would assign during a call (relevant only when the
call actually posts). -/
def callMsgIds : SMCall → List String
  | .online _ _ _ env => [env.newMessageId]
  | .offline _ _ => []
  | .update _ _ _ env => [env.newMessageId]

/-- Environment well-formedness for one call: Twitch reports the entity's own
login in the stream-info payload. -/
def infoLoginOK (loginOf : String → String) (bId : String) : Option StreamInfo → Bool
  | none => true
  | some info => info.user_login == loginOf bId

/-- Well-formed call: nonempty broadcaster id (as Twitch ids are) and a
consistent stream-info login. -/
def callOK (loginOf : String → String) : SMCall → Bool
  | .online b _ _ env => (b != "") && infoLoginOK loginOf b env.streamInfo
  | .offline b _ => b != ""
  | .update b _ _ env => (b != "") && infoLoginOK loginOf b env.streamInfo

/-- Invariant tying the tracker state to the persisted alert-id namespace:
every live entry with a posted alert has its message id persisted under the
entity's login; distinct live entries never share a message id; and every
live message id and persisted key has been handed out by the environment
(`used`). -/
def CacheInv (loginOf : String → String) (used : String → Prop) (s : SMState) : Prop :=
  (∀ b ev m, lookupEntry b s.onlineStreams = some ev → ev.messageId = some m →
     lookupEntry m s.cache = some (loginOf b)) ∧
  (∀ b b' ev ev' m, lookupEntry b s.onlineStreams = some ev →
     lookupEntry b' s.onlineStreams = some ev' →
     ev.messageId = some m → ev'.messageId = some m → b = b') ∧
  (∀ b ev m, lookupEntry b s.onlineStreams = some ev → ev.messageId = some m → used m) ∧
  (∀ m v, lookupEntry m s.cache = some v → used m)

theorem CacheInv.mono {loginOf : String → String} {used used' : String → Prop}
    (hsub : ∀ m, used m → used' m) {s : SMState} (h : CacheInv loginOf used s) :
    CacheInv loginOf used' s :=
  ⟨h.1, h.2.1, fun b ev m hb hm => hsub m (h.2.2.1 b ev m hb hm),
   fun m v hm => hsub m (h.2.2.2 m v hm)⟩

theorem deleteMessage_save_eq {bId : String} (hb : bId ≠ "") {ev : StreamEvent} (m : String)
    {s : SMState} (hl : lookupEntry bId s.onlineStreams = some ev) :
    (deleteMessage (some bId) m true s).1 =
      ⟨setEntry bId { ev with messageId := none } s.onlineStreams, eraseEntry m s.cache⟩ := by
  unfold deleteMessage
  simp [hb, hl]

/-- Tearing down an existing record preserves the invariant. -/
theorem CacheInv.teardown {loginOf : String → String} {used : String → Prop} {s : SMState}
    (h : CacheInv loginOf used s) (bId nm : String) :
    CacheInv loginOf used (teardownExisting bId nm s).1 := by
  obtain ⟨h1, h2, h3, h4⟩ := h
  refine ⟨?_, ?_, ?_, ?_⟩
  · intro b ev m hbv hm
    rw [lookupEntry_teardownExisting] at hbv
    by_cases hbb : b = bId
    · rw [if_pos hbb] at hbv; cases hbv
    · rw [if_neg hbb] at hbv
      cases hl : lookupEntry bId s.onlineStreams with
      | none =>
        rw [teardownExisting_cache_none nm hl]
        exact h1 b ev m hbv hm
      | some ev0 =>
        cases hm0 : ev0.messageId with
        | none =>
          rw [teardownExisting_cache_idle nm hl hm0]
          exact h1 b ev m hbv hm
        | some m0 =>
          rw [teardownExisting_cache_posted nm hl hm0]
          have hne : m ≠ m0 := fun he => hbb (h2 b bId ev ev0 m hbv hl hm (he ▸ hm0))
          rw [lookupEntry_eraseEntry_ne hne]
          exact h1 b ev m hbv hm
  · intro b b' ev ev' m hbv hbv' hm hm'
    rw [lookupEntry_teardownExisting] at hbv hbv'
    by_cases hbb : b = bId
    · rw [if_pos hbb] at hbv; cases hbv
    · by_cases hbb' : b' = bId
      · rw [if_pos hbb'] at hbv'; cases hbv'
      · rw [if_neg hbb] at hbv; rw [if_neg hbb'] at hbv'
        exact h2 b b' ev ev' m hbv hbv' hm hm'
  · intro b ev m hbv hm
    rw [lookupEntry_teardownExisting] at hbv
    by_cases hbb : b = bId
    · rw [if_pos hbb] at hbv; cases hbv
    · rw [if_neg hbb] at hbv
      exact h3 b ev m hbv hm
  · intro m v hm
    cases hl : lookupEntry bId s.onlineStreams with
    | none =>
      rw [teardownExisting_cache_none nm hl] at hm
      exact h4 m v hm
    | some ev0 =>
      cases hm0 : ev0.messageId with
      | none =>
        rw [teardownExisting_cache_idle nm hl hm0] at hm
        exact h4 m v hm
      | some m0 =>
        rw [teardownExisting_cache_posted nm hl hm0] at hm
        exact h4 m v (lookupEntry_eraseEntry_cases hm).2

/-- Posting a fresh alert (new entry with a fresh message id, persisted under
the entity's login) preserves the invariant, extending `used`. -/
theorem CacheInv.postEvent {loginOf : String → String} {used : String → Prop} {s : SMState}
    (h : CacheInv loginOf used s) (bId : String) (evNew : StreamEvent) (newId lg : String)
    (hevm : evNew.messageId = some newId) (hfresh : ¬ used newId) (hlg : lg = loginOf bId) :
    CacheInv loginOf (fun m => used m ∨ m = newId)
      ⟨setEntry bId evNew s.onlineStreams, setEntry newId lg s.cache⟩ := by
  obtain ⟨h1, h2, h3, h4⟩ := h
  refine ⟨?_, ?_, ?_, ?_⟩
  · intro b ev m hbv hm
    rcases lookupEntry_setEntry_cases hbv with ⟨rfl, rfl⟩ | ⟨hbb, hbv'⟩
    · rw [hevm] at hm
      cases hm
      rw [lookupEntry_setEntry_self, hlg]
    · have hused : used m := h3 b ev m hbv' hm
      have hne : m ≠ newId := fun he => hfresh (he ▸ hused)
      rw [lookupEntry_setEntry_ne hne]
      exact h1 b ev m hbv' hm
  · intro b b' ev ev' m hbv hbv' hm hm'
    rcases lookupEntry_setEntry_cases hbv with ⟨rfl, rfl⟩ | ⟨hbb, hbv2⟩ <;>
      rcases lookupEntry_setEntry_cases hbv' with ⟨h', rfl⟩ | ⟨hbb', hbv2'⟩
    · rw [h']
    · rw [hevm] at hm
      cases hm
      exact absurd (h3 b' ev' newId hbv2' hm') hfresh
    · rw [hevm] at hm'
      cases hm'
      exact absurd (h3 b ev newId hbv2 hm) hfresh
    · exact h2 b b' ev ev' m hbv2 hbv2' hm hm'
  · intro b ev m hbv hm
    rcases lookupEntry_setEntry_cases hbv with ⟨rfl, rfl⟩ | ⟨hbb, hbv'⟩
    · rw [hevm] at hm
      cases hm
      exact Or.inr rfl
    · exact Or.inl (h3 b ev m hbv' hm)
  · intro m v hm
    rcases lookupEntry_setEntry_cases hm with ⟨rfl, rfl⟩ | ⟨hne, hm'⟩
    · exact Or.inr rfl
    · exact Or.inl (h4 m v hm')

/-- Recording a live entry without an alert preserves the invariant. -/
theorem CacheInv.postIdle {loginOf : String → String} {used : String → Prop} {s : SMState}
    (h : CacheInv loginOf used s) (bId : String) (evNew : StreamEvent)
    (hevm : evNew.messageId = none) :
    CacheInv loginOf used ⟨setEntry bId evNew s.onlineStreams, s.cache⟩ := by
  obtain ⟨h1, h2, h3, h4⟩ := h
  refine ⟨?_, ?_, ?_, ?_⟩
  · intro b ev m hbv hm
    rcases lookupEntry_setEntry_cases hbv with ⟨rfl, rfl⟩ | ⟨hbb, hbv'⟩
    · rw [hevm] at hm; cases hm
    · exact h1 b ev m hbv' hm
  · intro b b' ev ev' m hbv hbv' hm hm'
    rcases lookupEntry_setEntry_cases hbv with ⟨rfl, rfl⟩ | ⟨hbb, hbv2⟩
    · rw [hevm] at hm; cases hm
    · rcases lookupEntry_setEntry_cases hbv' with ⟨h', rfl⟩ | ⟨hbb', hbv2'⟩
      · rw [hevm] at hm'; cases hm'
      · exact h2 b b' ev ev' m hbv2 hbv2' hm hm'
  · intro b ev m hbv hm
    rcases lookupEntry_setEntry_cases hbv with ⟨rfl, rfl⟩ | ⟨hbb, hbv'⟩
    · rw [hevm] at hm; cases hm
    · exact h3 b ev m hbv' hm
  · exact h4

/-- Deleting an entity's posted alert (clearing the in-memory id and erasing
the persisted entry together, as `deleteMessage` does) preserves the
invariant. -/
theorem CacheInv.clearMsg {loginOf : String → String} {used : String → Prop} {s : SMState}
    (h : CacheInv loginOf used s) {bId : String} {ev : StreamEvent} {m : String}
    (hl : lookupEntry bId s.onlineStreams = some ev) (hm : ev.messageId = some m) :
    CacheInv loginOf used
      ⟨setEntry bId { ev with messageId := none } s.onlineStreams, eraseEntry m s.cache⟩ := by
  obtain ⟨h1, h2, h3, h4⟩ := h
  refine ⟨?_, ?_, ?_, ?_⟩
  · intro b ev1 m1 hbv hm1
    rcases lookupEntry_setEntry_cases hbv with ⟨rfl, rfl⟩ | ⟨hbb, hbv'⟩
    · cases hm1
    · have hne : m1 ≠ m := fun he => hbb (h2 b bId ev1 ev m1 hbv' hl hm1 (he ▸ hm))
      rw [lookupEntry_eraseEntry_ne hne]
      exact h1 b ev1 m1 hbv' hm1
  · intro b b' ev1 ev1' m1 hbv hbv' hm1 hm1'
    rcases lookupEntry_setEntry_cases hbv with ⟨rfl, rfl⟩ | ⟨hbb, hbv2⟩
    · cases hm1
    · rcases lookupEntry_setEntry_cases hbv' with ⟨h', rfl⟩ | ⟨hbb', hbv2'⟩
      · cases hm1'
      · exact h2 b b' ev1 ev1' m1 hbv2 hbv2' hm1 hm1'
  · intro b ev1 m1 hbv hm1
    rcases lookupEntry_setEntry_cases hbv with ⟨rfl, rfl⟩ | ⟨hbb, hbv'⟩
    · cases hm1
    · exact h3 b ev1 m1 hbv' hm1
  · intro m1 v hm1
    exact h4 m1 v (lookupEntry_eraseEntry_cases hm1).2

/-- Dropping an entity's record preserves the invariant. -/
theorem CacheInv.eraseStream {loginOf : String → String} {used : String → Prop} {s : SMState}
    (h : CacheInv loginOf used s) (bId : String) :
    CacheInv loginOf used ⟨eraseEntry bId s.onlineStreams, s.cache⟩ := by
  obtain ⟨h1, h2, h3, h4⟩ := h
  refine ⟨?_, ?_, ?_, ?_⟩
  · intro b ev m hbv hm
    exact h1 b ev m (lookupEntry_eraseEntry_cases hbv).2 hm
  · intro b b' ev ev' m hbv hbv' hm hm'
    exact h2 b b' ev ev' m (lookupEntry_eraseEntry_cases hbv).2
      (lookupEntry_eraseEntry_cases hbv').2 hm hm'
  · intro b ev m hbv hm
    exact h3 b ev m (lookupEntry_eraseEntry_cases hbv).2 hm
  · exact h4

/-- One well-formed notification, whose fresh message id the environment has
not handed out before, preserves the invariant. -/
theorem CacheInv.step {loginOf : String → String} {used : String → Prop} {s : SMState}
    (h : CacheInv loginOf used s) (cfgCategory : String) (c : SMCall)
    (hok : callOK loginOf c = true) (hfresh : ∀ m ∈ callMsgIds c, ¬ used m) :
    CacheInv loginOf (fun m => used m ∨ m ∈ callMsgIds c) (stepCall cfgCategory s c).1 := by
  cases c with
  | online bId login nm env =>
    have hT := h.teardown bId nm
    simp only [callOK, Bool.and_eq_true, bne_iff_ne] at hok
    obtain ⟨hb, hinfo⟩ := hok
    simp only [stepCall, onStreamOnline, callMsgIds]
    cases henv : env.streamInfo with
    | none =>
      dsimp only
      exact hT.mono (fun m hx => Or.inl hx)
    | some info =>
      rw [henv] at hinfo
      simp only [infoLoginOK, beq_iff_eq] at hinfo
      dsimp only
      by_cases hcat : catMatch cfgCategory info.game_name
      · simp only [hcat, if_true]
        have hpost := hT.postEvent bId ⟨nm, info.game_name, some env.newMessageId⟩
          env.newMessageId info.user_login rfl
          (hfresh env.newMessageId (by simp [callMsgIds])) hinfo
        exact hpost.mono (fun m hx => hx.imp id (fun he => by simp [he]))
      · have hcat' : catMatch cfgCategory info.game_name = false := by simpa using hcat
        simp only [hcat', Bool.false_eq_true, if_false]
        exact (hT.postIdle bId ⟨nm, info.game_name, none⟩ rfl).mono (fun m hx => Or.inl hx)
  | offline bId login =>
    simp only [callOK, bne_iff_ne] at hok
    simp only [stepCall, onStreamOffline, callMsgIds]
    cases hl : lookupEntry bId s.onlineStreams with
    | none =>
      dsimp only
      exact h.mono (fun m hx => Or.inl hx)
    | some ev =>
      dsimp only
      cases hm : ev.messageId with
      | none =>
        dsimp only
        exact (h.eraseStream bId).mono (fun m hx => Or.inl hx)
      | some m =>
        dsimp only
        rw [deleteMessage_save_eq hok m hl]
        exact ((h.clearMsg hl hm).eraseStream bId).mono (fun m hx => Or.inl hx)
  | update bId login category env =>
    simp only [callOK, Bool.and_eq_true, bne_iff_ne] at hok
    obtain ⟨hb, hinfo⟩ := hok
    simp only [stepCall, onChannelUpdate, callMsgIds]
    cases hl : lookupEntry bId s.onlineStreams with
    | none =>
      dsimp only
      exact h.mono (fun m hx => Or.inl hx)
    | some ev =>
      dsimp only
      cases hm : ev.messageId with
      | some m =>
        dsimp only
        by_cases hcat : catMatch cfgCategory category
        · simp only [hcat, if_true]
          exact h.mono (fun m hx => Or.inl hx)
        · have hcat' : catMatch cfgCategory category = false := by simpa using hcat
          simp only [hcat', Bool.false_eq_true, if_false]
          rw [deleteMessage_save_eq hb m hl]
          exact (h.clearMsg hl hm).mono (fun m hx => Or.inl hx)
      | none =>
        dsimp only
        by_cases hcat : catMatch cfgCategory category
        · simp only [hcat, if_true]
          cases henv : env.streamInfo with
          | none =>
            dsimp only
            exact h.mono (fun m hx => Or.inl hx)
          | some info =>
            rw [henv] at hinfo
            simp only [infoLoginOK, beq_iff_eq] at hinfo
            dsimp only
            have hpost := h.postEvent bId { ev with messageId := some env.newMessageId }
              env.newMessageId info.user_login rfl
              (hfresh env.newMessageId (by simp [callMsgIds])) hinfo
            exact hpost.mono (fun m hx => hx.imp id (fun he => by simp [he]))
        · have hcat' : catMatch cfgCategory category = false := by simpa using hcat
          simp only [hcat', Bool.false_eq_true, if_false]
          exact h.mono (fun m hx => Or.inl hx)

/-- The invariant holds along every trace of well-formed calls with pairwise
distinct fresh message ids. -/
theorem cacheInv_runTrace {loginOf : String → String} (cfgCategory : String) :
    ∀ (tr : List SMCall) (used : String → Prop) (s : SMState),
    CacheInv loginOf used s →
    (∀ c ∈ tr, callOK loginOf c = true) →
    (tr.flatMap callMsgIds).Nodup →
    (∀ m ∈ tr.flatMap callMsgIds, ¬ used m) →
    CacheInv loginOf (fun m => used m ∨ m ∈ tr.flatMap callMsgIds)
      (runTrace cfgCategory s tr).1
  | [], used, s, h, _, _, _ => h.mono (fun m hx => Or.inl hx)
  | c :: rest, used, s, h, hok, hnd, hfr => by
    obtain ⟨hnd1, hnd2, hdisj⟩ := List.nodup_append.mp (by rwa [List.flatMap_cons] at hnd)
    have hfr1 : ∀ m ∈ callMsgIds c, ¬ used m := fun m hx =>
      hfr m (by rw [List.flatMap_cons]; exact List.mem_append_left _ hx)
    have hstep := h.step cfgCategory c (hok c (List.mem_cons_self c rest)) hfr1
    have hokr : ∀ c' ∈ rest, callOK loginOf c' = true := fun c' hc' =>
      hok c' (List.mem_cons_of_mem c hc')
    have hfrr : ∀ m ∈ rest.flatMap callMsgIds, ¬ (used m ∨ m ∈ callMsgIds c) := by
      intro m hmm
      rintro (hu | hc2)
      · exact hfr m (by rw [List.flatMap_cons]; exact List.mem_append_right _ hmm) hu
      · exact (List.disjoint_left.mp hdisj hc2) hmm
    have hmain := cacheInv_runTrace cfgCategory rest _ (stepCall cfgCategory s c).1
      hstep hokr hnd2 hfrr
    have hrw : (runTrace cfgCategory s (c :: rest)).1 =
        (runTrace cfgCategory (stepCall cfgCategory s c).1 rest).1 := by
      simp [runTrace]
    rw [hrw]
    refine hmain.mono (fun m hmm => ?_)
    rcases hmm with (hu | hc2) | hr
    · exact Or.inl hu
    · exact Or.inr (by rw [List.flatMap_cons]; exact List.mem_append_left _ hc2)
    · exact Or.inr (by rw [List.flatMap_cons]; exact List.mem_append_right _ hr)

/-! ## Claim theorems -/

/-- Claim C1 (counterexample): after an online notification in a non-matching
category followed by a channel update to the target category whose
stream-info fetch fails, the entity's `StreamEvent` survives with an
undefined alert message id although its last reported category
case-insensitively equals the configured target — refuting the claimed
"if and only if". -/
theorem alert_iff_category_counterexample :
    lookupEntry "b" (runTrace "Target" initState
        [SMCall.online "b" "blog" "B" ⟨some ⟨"Other", "blog"⟩, "m1"⟩,
         SMCall.update "b" "blog" "Target" ⟨none, "m2"⟩]).1.onlineStreams =
      some ⟨"B", "Other", none⟩ ∧
    lastReportedCategory "b"
        [SMCall.online "b" "blog" "B" ⟨some ⟨"Other", "blog"⟩, "m1"⟩,
         SMCall.update "b" "blog" "Target" ⟨none, "m2"⟩] = some "Target" ∧
    catMatch "Target" "Target" = true := by
  refine ⟨rfl, rfl, ?_⟩
  decide

/-- Claim C1 (amended): after any sequence of handler calls (for nonempty
broadcaster ids), at most one `StreamEvent` exists per entity (the map keys
stay duplicate-free), and each entity's entry is related to its shadow by
`entryRel`: the alert message id is defined exactly when the shadow is
alerted, an alerted entity's last reported category case-insensitively equals
the configured target, and a live non-alerted entity either has a
non-matching last category or its most recent report was a matching channel
update whose stream-info fetch returned nothing. -/
theorem alert_iff_category_amended (cfgCategory : String) (tr : List SMCall)
    (hb : ∀ c ∈ tr, callBId c ≠ "") :
    (keysOf (runTrace cfgCategory initState tr).1.onlineStreams).Nodup ∧
    ∀ bId, entryRel cfgCategory
        (lookupEntry bId (runTrace cfgCategory initState tr).1.onlineStreams)
        (lookupEntry bId (ghostRun cfgCategory [] tr)) := by
  refine corr_runTrace cfgCategory tr initState [] hb (by simp [initState, keysOf]) ?_
  intro b
  simp [initState, lookupEntry, entryRel]

/-- Witness for C1's amended theorem on a concrete trace (online in the
target category, then an update away from it). -/
theorem alert_iff_category_amended_witness :
    (keysOf (runTrace "t" initState
        [SMCall.online "7" "lg" "N" ⟨some ⟨"t", "lg"⟩, "m1"⟩,
         SMCall.update "7" "lg" "art" ⟨none, "m2"⟩]).1.onlineStreams).Nodup ∧
    ∀ bId, entryRel "t"
        (lookupEntry bId (runTrace "t" initState
            [SMCall.online "7" "lg" "N" ⟨some ⟨"t", "lg"⟩, "m1"⟩,
             SMCall.update "7" "lg" "art" ⟨none, "m2"⟩]).1.onlineStreams)
        (lookupEntry bId (ghostRun "t" []
            [SMCall.online "7" "lg" "N" ⟨some ⟨"t", "lg"⟩, "m1"⟩,
             SMCall.update "7" "lg" "art" ⟨none, "m2"⟩])) :=
  alert_iff_category_amended "t"
    [SMCall.online "7" "lg" "N" ⟨some ⟨"t", "lg"⟩, "m1"⟩,
     SMCall.update "7" "lg" "art" ⟨none, "m2"⟩]
    (by intro c hc; fin_cases hc <;> simp [callBId])

/-- Claim C2 (code bug): with two persisted alert entries, the startup
crash-recovery routine issues zero delete-message attempts and zero
role-revoke attempts — not two and two as claimed — although it does clear
the persisted set.  The SQL query quotes the column names with single quotes,
which SQLite parses as string literals, so its WHERE clause compares the
literal string `key` against `'streamManager:%'` and never matches a row. -/
theorem cleanup_issues_no_deletes_bug :
    cleanupMessagesAndRoles id
        [("streamManager:111", "loginA"), ("streamManager:222", "loginB")]
        ⟨[], [("111", "loginA"), ("222", "loginB")]⟩ =
      (⟨[], []⟩, []) ∧
    cleanupQueryRows [("streamManager:111", "loginA"), ("streamManager:222", "loginB")] = [] := by
  constructor <;> rfl

/-- Claim C3 (counterexample): a cached record whose remote status resolves to
`"not_exists"` (the paginated list is exhausted without finding the id)
triggers zero delete attempts, not the "exactly one delete attempt" the claim
asserts for this case; the cached record is still evicted, one create attempt
follows, and the cache ends with the new id and status. -/
theorem stale_not_exists_skips_delete_counterexample :
    getSubscriptionStatus [[⟨"other", "enabled"⟩]] "s1" = "not_exists" ∧
    subscribeToEvent (some ⟨"s1", "enabled"⟩)
        [⟨[[⟨"other", "enabled"⟩]],
          CreateRes.created "new1" "webhook_callback_verification_pending", none⟩] =
      (SubOutcome.done, some ⟨"new1", "webhook_callback_verification_pending"⟩,
        ⟨1, 0, 1, 0⟩) := by
  constructor <;> rfl

/-- Claim C3 (amended): for a cached record whose authoritative remote status
is neither `enabled` nor `webhook_callback_verification_pending`, a single
`ensureSubscribed` pass performs exactly one delete attempt when that status
is not `"not_exists"` and zero delete attempts when it is, evicts the cached
record, performs exactly one create attempt, and the cache ends holding the
new subscription's id and status. -/
theorem stale_subscription_reconcile_amended (rec : SubRecord)
    (pages : List (List SubRecord)) (i st2 : String) (refreshRec : Option SubRecord)
    (h1 : getSubscriptionStatus pages rec.id ≠ "enabled")
    (h2 : getSubscriptionStatus pages rec.id ≠ "webhook_callback_verification_pending") :
    subscribeToEvent (some rec) [⟨pages, CreateRes.created i st2, refreshRec⟩] =
      (SubOutcome.done, some ⟨i, st2⟩,
        ⟨1, if getSubscriptionStatus pages rec.id = "not_exists" then 0 else 1, 1, 0⟩) := by
  simp only [subscribeToEvent, if_neg h1, if_neg h2]

/-- Witness for C3's amended theorem at a concrete stale status
(`authorization_revoked`), where exactly one delete attempt is made. -/
theorem stale_subscription_reconcile_amended_witness :
    subscribeToEvent (some ⟨"s1", "x"⟩)
        [⟨[[⟨"s1", "authorization_revoked"⟩]], CreateRes.created "n" "enabled", none⟩] =
      (SubOutcome.done, some ⟨"n", "enabled"⟩, ⟨1, 1, 1, 0⟩) := by
  have h := stale_subscription_reconcile_amended ⟨"s1", "x"⟩
    [[⟨"s1", "authorization_revoked"⟩]] "n" "enabled" none (by decide) (by decide)
  simpa using h

/-- Claim C4 (counterexample): two consecutive create conflicts do not surface
a fatal error — the code recurses again after each full-cache refresh, so a
third create attempt is made (exceeding the claimed bound of two) and the run
still ends successfully. -/
theorem conflict_retry_unbounded_counterexample :
    subscribeToEvent none
        [⟨[], CreateRes.conflict, none⟩, ⟨[], CreateRes.conflict, none⟩,
         ⟨[], CreateRes.created "i" "enabled", none⟩] =
      (SubOutcome.done, some ⟨"i", "enabled"⟩, ⟨0, 0, 3, 2⟩) := by
  rfl

/-- Claim C4 (amended): a create conflict makes the registry refresh its full
local cache from the remote list and retry the whole subscribe step
recursively with no depth bound; when every refresh leaves the record absent,
`n` consecutive conflicts followed by one successful create yield `n + 1`
create attempts and `n` full refreshes, with no fatal error ever raised. -/
theorem conflict_retry_refresh_amended (n : Nat) (i st2 : String) :
    subscribeToEvent none
        (List.replicate n ⟨[], CreateRes.conflict, none⟩ ++
          [⟨[], CreateRes.created i st2, none⟩]) =
      (SubOutcome.done, some ⟨i, st2⟩, ⟨0, 0, n + 1, n⟩) := by
  induction n with
  | zero => rfl
  | succ k ih =>
    have hstep : ∀ rest : List SubRound,
        subscribeToEvent none (⟨[], CreateRes.conflict, none⟩ :: rest) =
          ((subscribeToEvent none rest).1, (subscribeToEvent none rest).2.1,
            ⟨0 + (subscribeToEvent none rest).2.2.statusChecks,
             0 + (subscribeToEvent none rest).2.2.deletes,
             1 + (subscribeToEvent none rest).2.2.creates,
             1 + (subscribeToEvent none rest).2.2.refreshes⟩) := fun _ => rfl
    rw [List.replicate_succ, List.cons_append, hstep, ih]
    simp [Nat.add_comm]

/-- Claim C5 (code bug): a claimed signature whose byte length differs from
the expected `'sha256=' + hex` string (71 bytes) makes
`crypto.timingSafeEqual` throw a `RangeError` instead of producing a 403, so
the gateway's own code sends no response at all (Express answers 500).  The
Stream State Tracker is still never invoked.  The digest is instantiated with
a function returning 64 hex characters, the shape of a real SHA-256 hex
digest. -/
theorem signature_length_mismatch_raises_bug :
    verifyRequestHmac (fun _ => String.mk (List.replicate 64 'a'))
        ⟨some "1", some "2", some "sha256=00", some "notification", "x"⟩ = VerifyRes.raised ∧
    (some "sha256=00" : Option String) ≠
      some (expectedHmac (fun _ => String.mk (List.replicate 64 'a'))
        ⟨some "1", some "2", some "sha256=00", some "notification", "x"⟩) ∧
    handleRequest (fun _ => String.mk (List.replicate 64 'a'))
        ⟨some "1", some "2", some "sha256=00", some "notification", "x"⟩ ⟨"c", "t", "s"⟩ =
      (none, false, false) := by
  refine ⟨rfl, ?_, rfl⟩
  decide

/-- Claim C7 (confirmed): for every verified request the response is
determined by the message-type header — `notification` gets 200 (sent by
`isNotification` before the downstream handler runs, hence regardless of its
outcome) and is the only type dispatched to the tracker;
`webhook_callback_verification` gets 200 with the literal challenge string
from the body; `revocation` gets 204 and mutates nothing (it is never
dispatched); any other or missing type gets 200 with a warning logged. -/
theorem gateway_dispatch_by_type (digest : String → String) (req : WebReq)
    (body : NotifBody) (hv : verifyRequestHmac digest req = VerifyRes.valid) :
    (req.messageTypeHeader = some "notification" →
      handleRequest digest req body = (some ⟨200, none⟩, true, false)) ∧
    (req.messageTypeHeader = some "webhook_callback_verification" →
      handleRequest digest req body = (some ⟨200, some body.challenge⟩, false, false)) ∧
    (req.messageTypeHeader = some "revocation" →
      handleRequest digest req body = (some ⟨204, none⟩, false, false)) ∧
    (∀ t, req.messageTypeHeader = some t → t ≠ "notification" →
      t ≠ "webhook_callback_verification" → t ≠ "revocation" →
      handleRequest digest req body = (some ⟨200, none⟩, false, true)) ∧
    (req.messageTypeHeader = none →
      handleRequest digest req body = (some ⟨200, none⟩, false, true)) ∧
    ((handleRequest digest req body).2.1 = true ↔
      req.messageTypeHeader = some "notification") := by
  refine ⟨?_, ?_, ?_, ?_, ?_, ?_⟩
  · intro ht; simp [handleRequest, hv, isNotification, ht]
  · intro ht; simp [handleRequest, hv, isNotification, ht]
  · intro ht; simp [handleRequest, hv, isNotification, ht]
  · intro t ht h1 h2 h3
    simp [handleRequest, hv, isNotification, ht, h1, h2, h3]
  · intro ht; simp [handleRequest, hv, isNotification, ht]
  · simp only [handleRequest, hv, isNotification]
    split_ifs with h1 h2 h3 <;> simp [h1]

/-- Witness for C7 at a concrete verified revocation request: the digest and
signature agree, the response is 204, and nothing is dispatched. -/
theorem gateway_dispatch_by_type_witness :
    verifyRequestHmac (fun _ => "d") ⟨some "1", some "2", some "sha256=d", some "revocation", "x"⟩ =
      VerifyRes.valid ∧
    handleRequest (fun _ => "d") ⟨some "1", some "2", some "sha256=d", some "revocation", "x"⟩
        ⟨"c", "t", "s"⟩ = (some ⟨204, none⟩, false, false) :=
  ⟨by decide,
   (gateway_dispatch_by_type (fun _ => "d")
      ⟨some "1", some "2", some "sha256=d", some "revocation", "x"⟩ ⟨"c", "t", "s"⟩
      (by decide)).2.2.1 rfl⟩

/-- Claim C8 (counterexample): when both fetches answer 401 the helper
performs two token refreshes in a single call (the second not followed by any
retry), refuting "exactly one token refresh followed by exactly one retry";
the call still returns "no result" rather than propagating the 401. -/
theorem double_unauthorized_two_refreshes_counterexample :
    makeApiCall ([] : List Nat) [(FetchRes.status 401 : FetchRes Unit), FetchRes.status 401] =
      (ApiOutcome.noResult, 2, 2) := by
  rfl

/-- Claim C8 (amended): per `makeApiCall` invocation at most two fetches are
made; a first-response 401 always triggers a refresh and exactly one retry;
a 401 on the retry triggers a second refresh but no further fetch and the
call returns "no result"; a thrown `TwitchApiError` never carries 401, so a
401 is never propagated; and any other non-2xx first response outside the
caller-supplied list returns "no result" after a single fetch. -/
theorem api_call_retry_amended {α : Type} (errorStatusCodes : List Nat) (r1 r2 : FetchRes α) :
    (makeApiCall errorStatusCodes [r1, r2]).2.1 ≤ 2 ∧
    (∀ c, (makeApiCall errorStatusCodes [r1, r2]).1 = ApiOutcome.apiErr c → c ≠ 401) ∧
    (r1 = FetchRes.status 401 →
      (makeApiCall errorStatusCodes [r1, r2]).2.1 = 2 ∧
      1 ≤ (makeApiCall errorStatusCodes [r1, r2]).2.2) ∧
    (r1 = FetchRes.status 401 → r2 = FetchRes.status 401 →
      makeApiCall errorStatusCodes [r1, r2] = (ApiOutcome.noResult, 2, 2)) ∧
    (∀ c, r1 = FetchRes.status c → c ≠ 401 → c ∉ errorStatusCodes →
      makeApiCall errorStatusCodes [r1, r2] = (ApiOutcome.noResult, 1, 0)) := by
  cases r1 with
  | ok p => simp [makeApiCall, makeApiCallAux]
  | status c =>
    by_cases hc : c = 401
    · subst hc
      cases r2 with
      | ok p => simp [makeApiCall, makeApiCallAux]
      | status c2 =>
        by_cases hc2 : c2 = 401
        · subst hc2; simp [makeApiCall, makeApiCallAux]
        · by_cases he : c2 ∈ errorStatusCodes <;>
            simp [makeApiCall, makeApiCallAux, hc2, he]
    · by_cases he : c ∈ errorStatusCodes <;>
        simp [makeApiCall, makeApiCallAux, hc, he]

/-- Witness for C8's amended theorem on a 401-then-success run: two fetches,
one refresh, the payload returned. -/
theorem api_call_retry_amended_witness :
    makeApiCall ([] : List Nat) [(FetchRes.status 401 : FetchRes Unit), FetchRes.ok ()] ≠
      (ApiOutcome.noResult, 1, 0) ∧
    (makeApiCall ([] : List Nat) [(FetchRes.status 401 : FetchRes Unit), FetchRes.ok ()]).2.1 = 2 :=
  ⟨by decide,
   ((api_call_retry_amended ([] : List Nat) (FetchRes.status 401 : FetchRes Unit)
      (FetchRes.ok ())).2.2.1 rfl).1⟩

/-- Claim C9 (confirmed): `getAppToken` returns the cached token unchanged
when one is cached (a nonempty string — JavaScript truthiness) and
`validate` is off, making no upstream call; with `validate` on it performs
one validation call and keeps the cached token exactly when validation
succeeds; in every other case it performs one client-credentials exchange,
persists the fresh token under the fixed `appToken` key, and returns it. -/
theorem getAppToken_spec (cached : Option String) (validate validateRes : Bool)
    (exchangeRes : Option String) (t tok : String) :
    (cached = some t → t ≠ "" → validate = false →
      getAppToken cached validate validateRes exchangeRes = ⟨TokenRes.token t, cached, 0, 0⟩) ∧
    (cached = some t → t ≠ "" → validate = true → validateRes = true →
      getAppToken cached validate validateRes exchangeRes = ⟨TokenRes.token t, cached, 1, 0⟩) ∧
    (cached = some t → t ≠ "" → validate = true → validateRes = false →
      exchangeRes = some tok →
      getAppToken cached validate validateRes exchangeRes =
        ⟨TokenRes.token tok, some tok, 1, 1⟩) ∧
    ((cached = none ∨ cached = some "") → exchangeRes = some tok →
      getAppToken cached validate validateRes exchangeRes =
        ⟨TokenRes.token tok, some tok, 0, 1⟩) := by
  refine ⟨?_, ?_, ?_, ?_⟩
  · rintro rfl ht rfl; simp [getAppToken, ht]
  · rintro rfl ht rfl rfl; simp [getAppToken, ht]
  · rintro rfl ht rfl rfl rfl; simp [getAppToken, ht, requestNewToken]
  · rintro (rfl | rfl) rfl <;> simp [getAppToken, requestNewToken]

/-- Witness for C9 on concrete runs: a cached token returned untouched
without validation, and a failed validation leading to one exchange that
persists and returns the fresh token. -/
theorem getAppToken_spec_witness :
    getAppToken (some "tok") false true (some "new") = ⟨TokenRes.token "tok", some "tok", 0, 0⟩ ∧
    getAppToken (some "tok") true false (some "new") =
      ⟨TokenRes.token "new", some "new", 1, 1⟩ :=
  ⟨(getAppToken_spec (some "tok") false true (some "new") "tok" "new").1 rfl (by decide) rfl,
   (getAppToken_spec (some "tok") true false (some "new") "tok" "new").2.2.1 rfl (by decide)
     rfl rfl rfl⟩

/-- True exactly for role-revoke effects. -/
def isRoleRevoke : SMEffect → Bool
  | .roleRevoked _ => true
  | _ => false

/-- Claim C6 (counterexample): delivering the same matching "online"
notification twice grants the role on the first delivery, but the second
delivery's teardown performs no role revocation (the log contains no
`roleRevoked` at all), refuting "revoking the role if granted"; it also sends
a second alert message (after deleting the first), so two alerts are posted in
total even though only one is ever live. -/
theorem duplicate_online_no_revoke_counterexample :
    runTrace "Target" initState
        [SMCall.online "b" "blog" "B" ⟨some ⟨"Target", "blog"⟩, "m1"⟩,
         SMCall.online "b" "blog" "B" ⟨some ⟨"Target", "blog"⟩, "m2"⟩] =
      (⟨[("b", ⟨"B", "Target", some "m2"⟩)], [("m2", "blog")]⟩,
       [SMEffect.sentMsg "m1" "blog", SMEffect.roleGranted "blog",
        SMEffect.warnedDup "B", SMEffect.deletedMsg "m1",
        SMEffect.sentMsg "m2" "blog", SMEffect.roleGranted "blog"]) ∧
    (runTrace "Target" initState
        [SMCall.online "b" "blog" "B" ⟨some ⟨"Target", "blog"⟩, "m1"⟩,
         SMCall.online "b" "blog" "B" ⟨some ⟨"Target", "blog"⟩, "m2"⟩]).2.countP
      (fun e => isRoleRevoke e) = 0 := by
  constructor <;> rfl

/-- Claim C6 (amended): a duplicate matching "online" yields exactly one
warning log and ends with exactly one live alert — the second delivery
deletes the prior alert message before posting the new one — but the
teardown revokes no role: the role grant is simply fired again.  The full
effect log and final state are computed exactly. -/
theorem duplicate_online_amended (cfgCategory bId login nm m1 m2 : String)
    (info : StreamInfo) (hb : bId ≠ "")
    (hmatch : catMatch cfgCategory info.game_name = true) :
    runTrace cfgCategory initState
        [SMCall.online bId login nm ⟨some info, m1⟩,
         SMCall.online bId login nm ⟨some info, m2⟩] =
      (⟨[(bId, ⟨nm, info.game_name, some m2⟩)], [(m2, info.user_login)]⟩,
       [SMEffect.sentMsg m1 info.user_login, SMEffect.roleGranted login,
        SMEffect.warnedDup nm, SMEffect.deletedMsg m1,
        SMEffect.sentMsg m2 info.user_login, SMEffect.roleGranted login]) := by
  simp [runTrace, stepCall, onStreamOnline, teardownExisting, deleteMessage, hmatch, hb,
    initState, lookupEntry, setEntry, eraseEntry]

/-- Witness for C6's amended theorem at concrete inputs. -/
theorem duplicate_online_amended_witness :
    runTrace "JC" initState
        [SMCall.online "77" "lg" "N" ⟨some ⟨"jc", "lg"⟩, "a1"⟩,
         SMCall.online "77" "lg" "N" ⟨some ⟨"jc", "lg"⟩, "a2"⟩] =
      (⟨[("77", ⟨"N", "jc", some "a2"⟩)], [("a2", "lg")]⟩,
       [SMEffect.sentMsg "a1" "lg", SMEffect.roleGranted "lg",
        SMEffect.warnedDup "N", SMEffect.deletedMsg "a1",
        SMEffect.sentMsg "a2" "lg", SMEffect.roleGranted "lg"]) :=
  duplicate_online_amended "JC" "77" "lg" "N" "a1" "a2" ⟨"jc", "lg"⟩ (by decide) (by decide)

/-- Claim C10 (confirmed): along every trace of well-formed calls (nonempty
broadcaster ids, stream-info logins consistent with the entities' logins, and
pairwise distinct freshly assigned message ids), whenever an in-memory
`StreamEvent` carries a defined alert message id, the persisted store maps
that message id to the broadcaster's login; and a saved deletion clears the
in-memory message id and removes the persisted entry in the same operation
(posting writes the persisted entry and records the id within the same atomic
step, in the source's order: `sendStreamEmbed` persists before its caller
stores the returned id). -/
theorem alert_cache_invariant (cfgCategory : String) (loginOf : String → String)
    (tr : List SMCall) (hnd : (tr.flatMap callMsgIds).Nodup)
    (hok : ∀ c ∈ tr, callOK loginOf c = true) :
    (∀ b ev m,
        lookupEntry b (runTrace cfgCategory initState tr).1.onlineStreams = some ev →
        ev.messageId = some m →
        lookupEntry m (runTrace cfgCategory initState tr).1.cache = some (loginOf b)) ∧
    (∀ (b m : String) (s : SMState), b ≠ "" →
        lookupEntry m (deleteMessage (some b) m true s).1.cache = none ∧
        ∀ ev, lookupEntry b (deleteMessage (some b) m true s).1.onlineStreams = some ev →
          ev.messageId = none) := by
  constructor
  · have h0 : CacheInv loginOf (fun _ => False) initState := by
      refine ⟨?_, ?_, ?_, ?_⟩
      · intro b ev m hb hm
        simp [initState, lookupEntry] at hb
      · intro b b' ev ev' m hb hb' hm hm'
        simp [initState, lookupEntry] at hb
      · intro b ev m hb hm
        simp [initState, lookupEntry] at hb
      · intro m v hm
        simp [initState, lookupEntry] at hm
    have hrun := cacheInv_runTrace cfgCategory tr (fun _ => False) initState h0 hok hnd
      (fun m _ hf => hf)
    exact hrun.1
  · intro b m s hbne
    constructor
    · rw [deleteMessage_cache, lookupEntry_eraseEntry_self]
    · intro ev hev
      cases hl : lookupEntry b s.onlineStreams with
      | none =>
        rw [deleteMessage, if_pos rfl] at hev
        simp only [hl] at hev
        rw [if_pos hbne, hl] at hev
        cases hev
      | some ev0 =>
        rw [lookupEntry_deleteMessage_self hbne m hl] at hev
        cases hev
        rfl

/-- Witness for C10 at a concrete one-call trace: the posting call persists
the message id under the broadcaster's login. -/
theorem alert_cache_invariant_witness :
    lookupEntry "m1" (runTrace "t" initState
        [SMCall.online "7" "lg" "N" ⟨some ⟨"t", "lg"⟩, "m1"⟩]).1.cache =
      some ((fun _ => "lg") "7") :=
  (alert_cache_invariant "t" (fun _ => "lg")
      [SMCall.online "7" "lg" "N" ⟨some ⟨"t", "lg"⟩, "m1"⟩] (by decide)
      (by intro c hc; fin_cases hc; decide)).1
    "7" ⟨"N", "t", some "m1"⟩ "m1" (by decide) rfl

end StreamAlert
